import Mathlib

/-!
Verification of the adcircSubdomainTool spatial-index click search, the
Edge canonicalization used by the boundary extractor, and the
CreationSelectionLayer interaction / undo-redo logic.

Floating-point coordinates from the C++ source are modelled as rationals.
-/

namespace AdcSub

/-- A mesh node: stable 1-based identity plus the normalized position
(`normX`, `normY`) that `ClickSearch` tests against (src/Quadtree data
model, spec section 3). -/
structure Node where
  nodeNumber : Nat
  normX : ℚ
  normY : ℚ
deriving DecidableEq, Repr

/-- A triangular element: exactly three ordered node references
`n1, n2, n3` (spec section 3; used by `ClickSearch::PointIsInsideElement`). -/
structure Element where
  elementNumber : Nat
  n1 : Node
  n2 : Node
  n3 : Node
deriving DecidableEq, Repr

/-- Axis-aligned cell bounds, `bounds[0..3] = (xmin, xmax, ymin, ymax)` as
they are read by `ClickSearch::PointIsInsideSquare`. -/
structure SquareBounds where
  xmin : ℚ
  xmax : ℚ
  ymin : ℚ
  ymax : ℚ
deriving DecidableEq, Repr

/-- A quadtree leaf: bounds plus the node and element lists it holds
directly (`QuadtreeData.h` is not under src/; the field set is the one the
spec's data model describes and `ClickSearch.cpp` reads). -/
structure leaf where
  bounds : SquareBounds
  nodes : List Node
  elements : List Element
deriving DecidableEq, Repr

/-- A quadtree cell.  A C++ `branch` holds four slots, each with an
optional sub-branch pointer and an optional leaf pointer; `ClickSearch`
visits them in the fixed order slot 0 branch, slot 0 leaf, slot 1 branch,
... .  We model a branch as its bounds together with the ordered list of
its non-null children in exactly that visiting order, which preserves the
search behavior for every tree the C++ code can build. -/
inductive cell where
  | leafC (l : leaf) : cell
  | branchC (bounds : SquareBounds) (children : List cell) : cell
deriving Repr

/-- The bounds of the root cell of a (sub)tree. -/
def rootBounds : cell → SquareBounds
  | .leafC l => l.bounds
  | .branchC b _ => b

/-- `ClickSearch::PointIsInsideSquare`: closed-box containment test,
`x >= bounds[0] && x <= bounds[1] && y >= bounds[2] && y <= bounds[3]`. -/
def pointIsInsideSquare (x y : ℚ) (b : SquareBounds) : Bool :=
  decide (b.xmin ≤ x) && decide (x ≤ b.xmax) && decide (b.ymin ≤ y) && decide (y ≤ b.ymax)

/-- The squared Euclidean distance from the query point to a node.
`ClickSearch::Distance` returns `sqrt(pow(x-normX,2) + pow(y-normY,2))`,
i.e. the square root of this value; the square root is strictly monotone
on nonnegatives, so every `<` comparison the scan makes on distances
agrees with the comparison on these squared distances (see
`distance_lt_iff_distanceSq_lt` below). -/
def distanceSq (x y : ℚ) (n : Node) : ℚ :=
  (x - n.normX) ^ 2 + (y - n.normY) ^ 2

/-- The loop state of `ClickSearch::SearchNodes(leaf*)`: the `itStarted`
flag, the current closest node (null before the first iteration) and the
record distance.  The record is the squared form of the float the source
keeps. -/
structure ScanState where
  itStarted : Bool
  currClosest : Option Node
  recordDistance : ℚ
deriving Repr

/-- One iteration of the `ClickSearch::SearchNodes(leaf*)` loop.  On the
first node it records that node and its distance; afterwards it replaces
`currClosest` whenever the current distance beats `recordDistance`.
Faithful to the source: the `else` branch updates only `currClosest` and
leaves `recordDistance` at the first node's distance
(ClickSearch.cpp lines 70-77). -/
def scanStep (x y : ℚ) (s : ScanState) (n : Node) : ScanState :=
  if !s.itStarted then
    { itStarted := true, currClosest := some n, recordDistance := distanceSq x y n }
  else if distanceSq x y n < s.recordDistance then
    { s with currClosest := some n }
  else
    s

/-- The linear scan of a leaf's node list performed by
`ClickSearch::SearchNodes(leaf*)` once the point is known to be inside
the leaf's bounds. -/
def nodeScan (x y : ℚ) (nodes : List Node) : Option Node :=
  (nodes.foldl (scanStep x y) ⟨false, none, 0⟩).currClosest

/-- `ClickSearch::SearchNodes(leaf*)`: bounds test, then the linear scan. -/
def searchNodesLeaf (x y : ℚ) (lf : leaf) : Option Node :=
  if pointIsInsideSquare x y lf.bounds then nodeScan x y lf.nodes else none

mutual

/-- `ClickSearch::SearchNodes` over a cell: a leaf is scanned, a branch
whose bounds contain the point forwards to its children in order and
returns the first non-null result. -/
def searchNodesC (x y : ℚ) : cell → Option Node
  | .leafC lf => searchNodesLeaf x y lf
  | .branchC b cs => if pointIsInsideSquare x y b then searchNodesList x y cs else none

/-- The child loop of `ClickSearch::SearchNodes(branch*)`: return the
first non-null recursive result, else null. -/
def searchNodesList (x y : ℚ) : List cell → Option Node
  | [] => none
  | c :: rest =>
    match searchNodesC x y c with
    | some n => some n
    | none => searchNodesList x y rest

end

/-- `ClickSearch::PointIsInsideElement`, translated verbatim including
the source's formula for `b`, whose final factor reads `(y - p3->normX)`
(ClickSearch.cpp line 185). -/
def pointIsInsideElement (x y : ℚ) (e : Element) : Bool :=
  let p1 := e.n1
  let p2 := e.n2
  let p3 := e.n3
  let denominator := (p2.normY - p3.normY) * (p1.normX - p3.normX) + (p3.normX - p2.normX) * (p1.normY - p3.normY)
  let a := ((p2.normY - p3.normY) * (x - p3.normX) + (p3.normX - p2.normX) * (y - p3.normY)) / denominator
  let b := ((p3.normY - p1.normY) * (x - p3.normX) + (p1.normX - p3.normX) * (y - p3.normX)) / denominator
  let c := 1 - a - b
  decide (0 < a) && decide (0 < b) && decide (0 < c)

/-- Modelled from the spec: the standard barycentric 2x2 solve for
triangle (p1,p2,p3) and test point q, inside iff all three weights are
strictly positive ("solve for barycentric weights a,b,c (c = 1-a-b) via
the standard 2x2 linear solve; q is inside iff a>0, b>0, c>0", spec
section 4.2).  It differs from the source only in the final factor of
`b`, which here is `(y - p3.normY)`. -/
def pointIsInsideElementSpec (x y : ℚ) (e : Element) : Bool :=
  let p1 := e.n1
  let p2 := e.n2
  let p3 := e.n3
  let denominator := (p2.normY - p3.normY) * (p1.normX - p3.normX) + (p3.normX - p2.normX) * (p1.normY - p3.normY)
  let a := ((p2.normY - p3.normY) * (x - p3.normX) + (p3.normX - p2.normX) * (y - p3.normY)) / denominator
  let b := ((p3.normY - p1.normY) * (x - p3.normX) + (p1.normX - p3.normX) * (y - p3.normY)) / denominator
  let c := 1 - a - b
  decide (0 < a) && decide (0 < b) && decide (0 < c)

/-- `ClickSearch::SearchElements(leaf*)`: bounds test, then return the
first element of the leaf's list that contains the point. -/
def searchElementsLeaf (x y : ℚ) (lf : leaf) : Option Element :=
  if pointIsInsideSquare x y lf.bounds then
    lf.elements.find? (fun e => pointIsInsideElement x y e)
  else none

mutual

/-- `ClickSearch::SearchElements` over a cell. -/
def searchElementsC (x y : ℚ) : cell → Option Element
  | .leafC lf => searchElementsLeaf x y lf
  | .branchC b cs => if pointIsInsideSquare x y b then searchElementsList x y cs else none

/-- The child loop of `ClickSearch::SearchElements(branch*)`. -/
def searchElementsList (x y : ℚ) : List cell → Option Element
  | [] => none
  | c :: rest =>
    match searchElementsC x y c with
    | some e => some e
    | none => searchElementsList x y rest

end

/-- The `ClickSearch` object state: the stored query coordinates. -/
structure ClickSearch where
  x : ℚ
  y : ℚ

/-- `ClickSearch::FindNode`: store the query point in the object, then
search from the root; returns the updated object and the result. -/
def ClickSearch.FindNode (cs : ClickSearch) (root : cell) (x y : ℚ) : ClickSearch × Option Node :=
  let cs2 : ClickSearch := { cs with x := x, y := y }
  (cs2, searchNodesC cs2.x cs2.y root)

/-- `ClickSearch::FindElement`: store the query point in the object, then
search from the root. -/
def ClickSearch.FindElement (cs : ClickSearch) (root : cell) (x y : ℚ) : ClickSearch × Option Element :=
  let cs2 : ClickSearch := { cs with x := x, y := y }
  (cs2, searchElementsC cs2.x cs2.y root)

mutual

/-- All leaves of a (sub)tree, in visiting order. -/
def leavesOf : cell → List leaf
  | .leafC l => [l]
  | .branchC _ cs => leavesOfList cs

/-- All leaves below a list of cells. -/
def leavesOfList : List cell → List leaf
  | [] => []
  | c :: rest => leavesOf c ++ leavesOfList rest

end

/-- The `Edge` struct of `src/SubdomainTools/BoundaryFinder.h`: an
unordered pair of node IDs stored canonically. -/
structure Edge where
  n1 : Nat
  n2 : Nat
deriving DecidableEq, Repr

/-- The two-argument `Edge` constructor: the smaller ID goes to `n1`, the
larger to `n2` (BoundaryFinder.h lines 17-26). -/
def Edge.make (first second : Nat) : Edge :=
  if first < second then { n1 := first, n2 := second } else { n1 := second, n2 := first }

/-- `Edge::operator==`: component-wise equality of the canonical pair. -/
def Edge.eqOp (e f : Edge) : Bool :=
  decide (e.n1 = f.n1) && decide (e.n2 = f.n2)

/-- `Edge::operator<`: lexicographic order on the canonical pair. -/
def Edge.ltOp (e f : Edge) : Bool :=
  if e.n1 = f.n1 then decide (e.n2 < f.n2) else decide (e.n1 < f.n1)

/-! ## CreationSelectionLayer: circle-tool interaction protocol

The mouse-event slice of `CreationSelectionLayer` together with the
`CircleTool` state it drives (`SetCenter`, `SetRadiusPoint`,
`CircleFinished`).  `CIRCLETOOLINDEX` is tool ID 1.  `CircleFinished`
is what eventually triggers the one quadtree query of the interaction,
so we count its calls. -/

/-- The tool index of the circle tool (`CreationSelectionLayer::UseTool`
documentation: 1 - CircleTool). -/
def circleToolIndex : Nat := 1

/-- The interaction-relevant state of a `CreationSelectionLayer` plus its
`CircleTool`: the `mousePressed` flag, the active tool ID, whether the
`circleTool` pointer is non-null, the circle center and radius point the
tool owns, and how many times `CircleFinished` has run. -/
structure InteractionState where
  mousePressed : Bool
  activeTool : Nat
  circleTool : Bool
  circleCenter : Option (Int × Int)
  circleRadiusPoint : Option (Int × Int)
  circleFinishedCount : Nat
deriving DecidableEq, Repr

/-- `CreationSelectionLayer::MouseClick`: set `mousePressed`, and forward
the point to `CircleTool::SetCenter` when the circle tool is active. -/
def mouseClick (s : InteractionState) (x y : Int) : InteractionState :=
  let s1 := { s with mousePressed := true }
  if s1.activeTool = circleToolIndex ∧ s1.circleTool = true then
    { s1 with circleCenter := some (x, y) }
  else s1

/-- `CreationSelectionLayer::MouseMove`: forward the point to
`CircleTool::SetRadiusPoint` only while the button is held and the circle
tool is active. -/
def mouseMove (s : InteractionState) (x y : Int) : InteractionState :=
  if s.mousePressed = true ∧ s.activeTool = circleToolIndex ∧ s.circleTool = true then
    { s with circleRadiusPoint := some (x, y) }
  else s

/-- `CreationSelectionLayer::MouseRelease`: clear `mousePressed`, then
run `CircleTool::CircleFinished` when the circle tool is active. -/
def mouseRelease (s : InteractionState) (_x _y : Int) : InteractionState :=
  let s1 := { s with mousePressed := false }
  if s1.activeTool = circleToolIndex ∧ s1.circleTool = true then
    { s1 with circleFinishedCount := s1.circleFinishedCount + 1 }
  else s1

/-- A mouse event delivered to the layer. -/
inductive MouseEvent where
  | click (x y : Int)
  | move (x y : Int)
  | release (x y : Int)
deriving DecidableEq, Repr

/-- Dispatch one mouse event. -/
def applyEvent (s : InteractionState) : MouseEvent → InteractionState
  | .click x y => mouseClick s x y
  | .move x y => mouseMove s x y
  | .release x y => mouseRelease s x y

/-- Run a whole event sequence. -/
def applyEvents (s : InteractionState) (evs : List MouseEvent) : InteractionState :=
  evs.foldl applyEvent s

/-- Whether the button is held after an event sequence, starting from a
given flag value: a click sets it, a release clears it, a move keeps it. -/
def buttonHeldFrom (b : Bool) (evs : List MouseEvent) : Bool :=
  evs.foldl (fun h e => match e with
    | .click _ _ => true
    | .release _ _ => false
    | .move _ _ => h) b

/-- Whether the button is held after an event sequence from start-up. -/
def buttonHeld (evs : List MouseEvent) : Bool :=
  buttonHeldFrom false evs

/-- The state after the `CreationSelectionLayer` constructor: button not
pressed, `activeTool = 1`, and `CreateCircleTool` has allocated the
circle tool. -/
def initInteraction : InteractionState :=
  { mousePressed := false
    activeTool := 1
    circleTool := true
    circleCenter := none
    circleRadiusPoint := none
    circleFinishedCount := 0 }

/-! ## CreationSelectionLayer: selection states, undo and redo

`ElementState` wraps a `std::vector<Element*>`; we model an element
pointer as a `Nat` (its address, which is also what `std::sort` and
`std::unique` compare in `CircleToolFinishedSearching`) and a state as
the list it holds.  `selectedState` is a nullable pointer.  The undo and
redo stacks hold `ElementState*`; every push the source performs
(`CircleToolFinishedSearching`, `Undo`, `Redo`) pushes a state that was
just checked or created non-null, so stack entries are modelled as
states. -/

/-- The element list held by one `ElementState`. -/
abbrev ESel := List Nat

/-- The undo and redo machinery of `CreationSelectionLayer`. -/
structure SelLayer where
  selectedState : Option ESel
  undoStack : List ESel
  redoStack : List ESel
deriving DecidableEq, Repr

/-- `CreationSelectionLayer::Undo`: when the undo stack is non-empty and
a current state exists, push the current state on the redo stack and pop
the undo stack into the current state; otherwise do nothing.  (Signal
emission and `LoadDataToGPU` are display side effects outside this
model.) -/
def undo (s : SelLayer) : SelLayer :=
  match s.undoStack, s.selectedState with
  | top :: rest, some cur =>
    { selectedState := some top, undoStack := rest, redoStack := cur :: s.redoStack }
  | _, _ => s

/-- `CreationSelectionLayer::Redo`: the mirror image of `Undo`. -/
def redo (s : SelLayer) : SelLayer :=
  match s.redoStack, s.selectedState with
  | top :: rest, some cur =>
    { selectedState := some top, undoStack := cur :: s.undoStack, redoStack := rest }
  | _, _ => s

/-- `std::unique` followed by the `resize` to the returned iterator, as
used on the sorted merged list: collapse each run of equal adjacent
elements to one.  (`std::unique` keeps the first element of a run; when
the two compared elements are equal, keeping the head of the remaining
run yields the same list, which is what this structurally recursive form
does.) -/
def uniqueAdj {α : Type} [DecidableEq α] : List α → List α
  | [] => []
  | [a] => [a]
  | a :: b :: rest =>
    if a = b then uniqueAdj (b :: rest) else a :: uniqueAdj (b :: rest)

/-- `CreationSelectionLayer::CircleToolFinishedSearching`, taking the
list the circle tool found.  A null `selectedState` is first replaced by
a fresh empty state.  A non-empty find is merged: new list = found ++
current, the old current state is pushed on the undo stack, the merged
list is sorted and deduplicated (`std::sort`, modelled by insertion sort
into the same order, then `std::unique`/`resize`), and the redo stack is
cleared.  An empty find is discarded. -/
def circleToolFinishedSearching (s : SelLayer) (found : List Nat) : SelLayer :=
  let sel0 := s.selectedState.getD []
  if 0 < found.length then
    if 0 < sel0.length then
      { selectedState := some (uniqueAdj (List.insertionSort (fun a b => a ≤ b) (found ++ sel0)))
        undoStack := sel0 :: s.undoStack
        redoStack := [] }
    else
      { selectedState := some found
        undoStack := sel0 :: s.undoStack
        redoStack := [] }
  else
    { selectedState := some sel0, undoStack := s.undoStack, redoStack := s.redoStack }

/-- The set of currently selected elements: empty when `selectedState`
is null. -/
def selectedElements (s : SelLayer) : List Nat :=
  s.selectedState.getD []

/-! ## Concrete inputs used by the counterexamples and witnesses -/

/-- A node at the origin. -/
def exN1 : Node := ⟨1, 0, 0⟩

/-- A node at (10, 0). -/
def exN2 : Node := ⟨2, 10, 0⟩

/-- A node at (1, 0). -/
def exN3 : Node := ⟨3, 1, 0⟩

/-- A leaf holding the three nodes above. -/
def exLeafA : leaf := ⟨⟨0, 10, 0, 5⟩, [exN1, exN2, exN3], []⟩

/-- A one-leaf quadtree over those nodes. -/
def exTreeA : cell := .branchC ⟨0, 10, 0, 5⟩ [.leafC exLeafA]

/-- The triangle (3,0), (1,2), (1,0); its third vertex has distinct x
and y, which the coordinates of the barycentric test must keep apart. -/
def exElemT : Element := ⟨7, ⟨4, 3, 0⟩, ⟨5, 1, 2⟩, ⟨6, 1, 0⟩⟩

/-- The triangle (0,0), (1,0), (0,1). -/
def exElemB : Element := ⟨8, ⟨9, 0, 0⟩, ⟨10, 1, 0⟩, ⟨11, 0, 1⟩⟩

/-- A leaf holding only that triangle and no nodes. -/
def exLeafB : leaf := ⟨⟨0, 1, 0, 1⟩, [], [exElemB]⟩

/-- A one-leaf quadtree over that triangle. -/
def exTreeB : cell := .branchC ⟨0, 1, 0, 1⟩ [.leafC exLeafB]

/-- A selection-layer state with one current state and non-empty undo
and redo stacks. -/
def exSel8 : SelLayer := ⟨some [5], [[3]], [[7]]⟩

/-- A selection-layer state with a two-element current selection. -/
def exSel10 : SelLayer := ⟨some [2, 1], [[9]], [[4]]⟩

/-! ## Helper lemmas -/

/-- Structural induction over cells, with the nested recursor packaged
as a membership hypothesis over the child list. -/
theorem cell_strong_ind (motive : cell → Prop)
    (hl : ∀ l, motive (.leafC l))
    (hb : ∀ b cs, (∀ c ∈ cs, motive c) → motive (.branchC b cs)) :
    ∀ c, motive c := fun c =>
  @cell.rec motive (fun cs => ∀ x ∈ cs, motive x)
    hl
    (fun b cs ih => hb b cs ih)
    (fun x hx => absurd hx (List.not_mem_nil x))
    (fun hd tl hhd htl x hx => by
      rcases List.mem_cons.mp hx with h | h
      · exact h ▸ hhd
      · exact htl x h)
    c

/-- The branch child loop of the node search returns null when every
child search returns null. -/
theorem searchNodesList_eq_none (x y : ℚ) (cs : List cell)
    (h : ∀ c ∈ cs, searchNodesC x y c = none) :
    searchNodesList x y cs = none := by
  induction cs with
  | nil => simp [searchNodesList]
  | cons c rest ih =>
    simp only [searchNodesList, h c (List.mem_cons_self c rest)]
    exact ih fun d hd => h d (List.mem_cons_of_mem c hd)

/-- A non-null result of the branch child loop of the element search
comes from one of the children. -/
theorem searchElementsList_eq_some (x y : ℚ) (cs : List cell) (e : Element)
    (h : searchElementsList x y cs = some e) :
    ∃ c ∈ cs, searchElementsC x y c = some e := by
  induction cs with
  | nil => simp [searchElementsList] at h
  | cons c rest ih =>
    rw [searchElementsList] at h
    rcases hc : searchElementsC x y c with _ | e2
    · rw [hc] at h
      rcases ih h with ⟨d, hd, hde⟩
      exact ⟨d, List.mem_cons_of_mem c hd, hde⟩
    · rw [hc] at h
      exact ⟨c, List.mem_cons_self c rest, hc.trans h⟩

/-- Membership in the leaves below a list of cells. -/
theorem mem_leavesOfList (lf : leaf) (cs : List cell) :
    lf ∈ leavesOfList cs ↔ ∃ c ∈ cs, lf ∈ leavesOf c := by
  induction cs with
  | nil => simp [leavesOfList]
  | cons c rest ih => simp [leavesOfList, ih]

/-- The comparisons the leaf scan makes on the square roots the source
computes (`ClickSearch::Distance`) agree with the comparisons on the
squared distances the model keeps. -/
theorem distance_lt_iff_distanceSq_lt (x y : ℚ) (m n : Node) :
    Real.sqrt ((distanceSq x y m : ℚ) : ℝ) < Real.sqrt ((distanceSq x y n : ℚ) : ℝ)
      ↔ distanceSq x y m < distanceSq x y n := by
  rw [Real.sqrt_lt_sqrt_iff (by rw [distanceSq]; push_cast; positivity)]
  exact_mod_cast Iff.rfl

/-- Mouse events never change which tool is active or whether the
circle tool exists. -/
theorem applyEvent_tools (s : InteractionState) (e : MouseEvent) :
    (applyEvent s e).activeTool = s.activeTool ∧ (applyEvent s e).circleTool = s.circleTool := by
  cases e <;> simp [applyEvent, mouseClick, mouseMove, mouseRelease] <;> split_ifs <;> simp

/-- The `mousePressed` flag after an event sequence is the fold that
sets it on click and clears it on release. -/
theorem applyEvents_pressed (s : InteractionState) (evs : List MouseEvent) :
    (applyEvents s evs).mousePressed = buttonHeldFrom s.mousePressed evs := by
  induction evs generalizing s with
  | nil => rfl
  | cons e rest ih =>
    have h1 : applyEvents s (e :: rest) = applyEvents (applyEvent s e) rest := rfl
    rw [h1, ih]
    have step : (applyEvent s e).mousePressed
        = (match e with
           | .click _ _ => true
           | .release _ _ => false
           | .move _ _ => s.mousePressed) := by
      cases e <;> simp [applyEvent, mouseClick, mouseMove, mouseRelease] <;> split_ifs <;> rfl
    rw [step]
    cases e <;> rfl

/-- Adjacent deduplication never changes membership. -/
theorem mem_uniqueAdj {α : Type} [DecidableEq α] (l : List α) (x : α) :
    x ∈ uniqueAdj l ↔ x ∈ l := by
  induction l using uniqueAdj.induct with
  | case1 => simp [uniqueAdj]
  | case2 a => simp [uniqueAdj]
  | case3 b rest ih => simp [uniqueAdj, ih]
  | case4 a b rest hab ih => simp [uniqueAdj, hab, ih]

/-- On a sorted list, adjacent deduplication produces a duplicate-free
list. -/
theorem nodup_uniqueAdj (l : List Nat) (h : l.Sorted (fun a b => a ≤ b)) :
    (uniqueAdj l).Nodup := by
  induction l using uniqueAdj.induct with
  | case1 => simp [uniqueAdj]
  | case2 a => simp [uniqueAdj]
  | case3 b rest ih =>
    rw [uniqueAdj, if_pos rfl]
    exact ih (List.sorted_cons.mp h).2
  | case4 a b rest hab ih =>
    rw [uniqueAdj, if_neg hab]
    have hs := List.sorted_cons.mp h
    refine List.nodup_cons.mpr ⟨?_, ih hs.2⟩
    intro hmem
    have hmem2 : a ∈ b :: rest := (mem_uniqueAdj _ _).mp hmem
    rcases List.mem_cons.mp hmem2 with he | hr
    · exact hab he
    · have h1 : a ≤ b := hs.1 b (List.mem_cons_self b rest)
      have h2 : b ≤ a := (List.sorted_cons.mp hs.2).1 a hr
      exact hab (le_antisymm h1 h2)

/-! ## Claim theorems -/

/-- Claim C1.  The claim states that the nearest-node query returns a
node of the reached leaf at minimal Euclidean distance, and in
particular returns a stored node when queried at its exact coordinates.
The code violates this: the leaf scan of `ClickSearch::SearchNodes`
never updates `recordDistance` after the first node, so it returns the
last node that is closer than the first one.  Querying the tree
`exTreeA` at (10, 0) - the exact coordinates of the stored node `exN2`,
at squared distance 0 - returns `exN3` instead, at squared distance 81. -/
theorem c1_nearest_scan_returns_nonminimal_node :
    (ClickSearch.FindNode ⟨0, 0⟩ exTreeA 10 0).2 = some exN3
    ∧ exN2 ∈ exLeafA.nodes
    ∧ exN2.normX = 10 ∧ exN2.normY = 0
    ∧ distanceSq 10 0 exN2 = 0
    ∧ distanceSq 10 0 exN3 = 81 := by
  refine ⟨?_, by simp [exLeafA], by simp [exN2], by simp [exN2], ?_, ?_⟩
  · show searchNodesC 10 0 exTreeA = some exN3
    simp [exTreeA, exLeafA, searchNodesC, searchNodesList, searchNodesLeaf, nodeScan, scanStep,
      pointIsInsideSquare, distanceSq, exN1, exN2, exN3]
    norm_num
  · simp [distanceSq, exN2]
  · simp [distanceSq, exN3]
    norm_num

/-- Claim C2.  The claim states that `ClickSearch::PointIsInsideElement`
returns true exactly when the barycentric weights of the standard 2x2
solve are all strictly positive.  The code computes `b` with the factor
`(y - p3->normX)` where the standard solve uses `(y - p3->normY)`, so
the two tests disagree whenever the third vertex has distinct
coordinates: at the centroid (5/3, 2/3) of the triangle `exElemT` with
vertices (3,0), (1,2), (1,0) the standard weights are all 1/3, yet the
code reports the point outside. -/
theorem c2_barycentric_b_term_typo :
    pointIsInsideElement (5/3) (2/3) exElemT = false
    ∧ pointIsInsideElementSpec (5/3) (2/3) exElemT = true := by
  constructor
  · simp [pointIsInsideElement, exElemT]
    norm_num
  · simp [pointIsInsideElementSpec, exElemT]
    norm_num

/-- Claim C3.  The click search never fails: when the query point lies
outside the root cell's bounds, both `FindNode` and `FindElement` return
null; a leaf holding no nodes contributes null to the node search; and
when every leaf of the tree whose bounds contain the point is empty -
in particular when the leaf reached by descent holds no nodes -
`FindNode` returns null.  The search functions are total, so no
exception and no partial result can arise. -/
theorem c3_click_search_null_on_miss (cs : ClickSearch) (t : cell) (x y : ℚ) :
    (pointIsInsideSquare x y (rootBounds t) = false →
      (ClickSearch.FindNode cs t x y).2 = none ∧ (ClickSearch.FindElement cs t x y).2 = none)
    ∧ (∀ lf : leaf, lf.nodes = [] → searchNodesLeaf x y lf = none)
    ∧ ((∀ lf ∈ leavesOf t, pointIsInsideSquare x y lf.bounds = true → lf.nodes = []) →
      (ClickSearch.FindNode cs t x y).2 = none) := by
  refine ⟨?_, ?_, ?_⟩
  · intro hout
    cases t with
    | leafC lf =>
      constructor
      · show searchNodesC x y (.leafC lf) = none
        rw [searchNodesC, searchNodesLeaf, if_neg (by simp_all [rootBounds])]
      · show searchElementsC x y (.leafC lf) = none
        rw [searchElementsC, searchElementsLeaf, if_neg (by simp_all [rootBounds])]
    | branchC b cs2 =>
      constructor
      · show searchNodesC x y (.branchC b cs2) = none
        rw [searchNodesC, if_neg (by simp_all [rootBounds])]
      · show searchElementsC x y (.branchC b cs2) = none
        rw [searchElementsC, if_neg (by simp_all [rootBounds])]
  · intro lf hempty
    rw [searchNodesLeaf]
    by_cases hin : pointIsInsideSquare x y lf.bounds
    · rw [if_pos hin, nodeScan, hempty]
      rfl
    · rw [if_neg hin]
  · intro hleaves
    show searchNodesC x y t = none
    induction t using cell_strong_ind with
    | hl lf =>
      rw [searchNodesC, searchNodesLeaf]
      by_cases hin : pointIsInsideSquare x y lf.bounds
      · rw [if_pos hin, hleaves lf (by simp [leavesOf]) hin, nodeScan]
        rfl
      · rw [if_neg hin]
    | hb b cs2 ih =>
      rw [searchNodesC]
      by_cases hin : pointIsInsideSquare x y b
      · rw [if_pos hin]
        refine searchNodesList_eq_none x y cs2 fun c hc => ih c hc fun lf hlf hbnd => ?_
        exact hleaves lf (by rw [leavesOf]; exact (mem_leavesOfList lf cs2).mpr ⟨c, hc, hlf⟩) hbnd
      · rw [if_neg hin]

/-- Witness for claim C3, at the concrete tree `exTreeA` queried at
(20, 0), a point outside its root bounds, and at the tree `exTreeB`
whose only leaf holds no nodes, queried at an interior point. -/
theorem c3_click_search_null_on_miss_witness :
    ((ClickSearch.FindNode ⟨0, 0⟩ exTreeA 20 0).2 = none
      ∧ (ClickSearch.FindElement ⟨0, 0⟩ exTreeA 20 0).2 = none)
    ∧ searchNodesLeaf (1/2) (1/2) exLeafB = none
    ∧ (ClickSearch.FindNode ⟨0, 0⟩ exTreeB (1/2) (1/2)).2 = none := by
  refine ⟨(c3_click_search_null_on_miss ⟨0, 0⟩ exTreeA 20 0).1
      (by simp [exTreeA, rootBounds, pointIsInsideSquare]; norm_num),
    (c3_click_search_null_on_miss ⟨0, 0⟩ exTreeB (1/2) (1/2)).2.1 exLeafB (by simp [exLeafB]),
    (c3_click_search_null_on_miss ⟨0, 0⟩ exTreeB (1/2) (1/2)).2.2 ?_⟩
  intro lf hlf _hin
  have hlfB : lf = exLeafB := by
    simp [exTreeB, leavesOf, leavesOfList] at hlf
    exact hlf
  simp [hlfB, exLeafB]

/-- Claim C4.  The `Edge` constructor stores the smaller node ID in `n1`
and the larger in `n2`, `Edge(a,b)` and `Edge(b,a)` are the same edge,
`operator==` holds between two constructed edges exactly when their
unordered ID pairs coincide, and the strict order `operator<` separates
neither orientation of the same geometric edge, so both map to one key. -/
theorem c4_edge_canonical_unordered_pair (a b c d : Nat) :
    (Edge.make a b).n1 = min a b ∧ (Edge.make a b).n2 = max a b
    ∧ Edge.make a b = Edge.make b a
    ∧ (Edge.eqOp (Edge.make a b) (Edge.make c d) = true ↔ (a = c ∧ b = d) ∨ (a = d ∧ b = c))
    ∧ Edge.ltOp (Edge.make a b) (Edge.make b a) = false := by
  refine ⟨?_, ?_, ?_, ?_, ?_⟩ <;>
    simp only [Edge.make, Edge.eqOp, Edge.ltOp, Edge.mk.injEq] <;>
    split_ifs <;> simp_all <;> omega

/-- Claim C5.  Whenever `ClickSearch::FindElement` returns a non-null
element, that element passes the point-in-element containment test for
the query point and is stored in a leaf of the tree whose bounds contain
the query point. -/
theorem c5_find_element_sound (cs : ClickSearch) (t : cell) (x y : ℚ) (e : Element)
    (h : (ClickSearch.FindElement cs t x y).2 = some e) :
    pointIsInsideElement x y e = true
      ∧ ∃ lf ∈ leavesOf t, e ∈ lf.elements ∧ pointIsInsideSquare x y lf.bounds = true := by
  have h2 : searchElementsC x y t = some e := h
  clear h
  revert h2
  induction t using cell_strong_ind with
  | hl lf =>
    intro h2
    rw [searchElementsC, searchElementsLeaf] at h2
    by_cases hin : pointIsInsideSquare x y lf.bounds
    · rw [if_pos hin] at h2
      exact ⟨List.find?_some h2, lf, by simp [leavesOf], List.mem_of_find?_eq_some h2, hin⟩
    · rw [if_neg hin] at h2
      exact absurd h2 (by simp)
  | hb b cs2 ih =>
    intro h2
    rw [searchElementsC] at h2
    by_cases hin : pointIsInsideSquare x y b
    · rw [if_pos hin] at h2
      rcases searchElementsList_eq_some x y cs2 e h2 with ⟨c, hc, hce⟩
      rcases ih c hc hce with ⟨hel, lf, hlf, hmem, hbnd⟩
      exact ⟨hel, lf, by rw [leavesOf]; exact (mem_leavesOfList lf cs2).mpr ⟨c, hc, hlf⟩, hmem, hbnd⟩
    · rw [if_neg hin] at h2
      exact absurd h2 (by simp)

/-- Witness for claim C5: querying `exTreeB` at (1/4, 1/4) returns the
triangle `exElemB`, which indeed contains the point and is stored in a
leaf whose bounds contain it. -/
theorem c5_find_element_sound_witness :
    pointIsInsideElement (1/4) (1/4) exElemB = true
      ∧ ∃ lf ∈ leavesOf exTreeB, exElemB ∈ lf.elements
          ∧ pointIsInsideSquare (1/4) (1/4) lf.bounds = true := by
  refine c5_find_element_sound ⟨0, 0⟩ exTreeB (1/4) (1/4) exElemB ?_
  show searchElementsC (1/4) (1/4) exTreeB = some exElemB
  simp [exTreeB, exLeafB, searchElementsC, searchElementsList, searchElementsLeaf,
    pointIsInsideSquare, pointIsInsideElement, exElemB]
  norm_num

/-- Claim C6.  Click-search queries are deterministic and independent of
the `ClickSearch` object's prior stored coordinates (the query always
overwrites them), so two successive identical `FindNode` or
`FindElement` calls return the same result; the tree itself is a
read-only input that the search never modifies. -/
theorem c6_click_search_idempotent (cs cs2 : ClickSearch) (t : cell) (x y : ℚ) :
    (ClickSearch.FindNode cs t x y).2 = (ClickSearch.FindNode cs2 t x y).2
    ∧ (ClickSearch.FindNode (ClickSearch.FindNode cs t x y).1 t x y).2
        = (ClickSearch.FindNode cs t x y).2
    ∧ (ClickSearch.FindElement cs t x y).2 = (ClickSearch.FindElement cs2 t x y).2
    ∧ (ClickSearch.FindElement (ClickSearch.FindElement cs t x y).1 t x y).2
        = (ClickSearch.FindElement cs t x y).2 :=
  ⟨rfl, rfl, rfl, rfl⟩

/-- Claim C7.  In the circle-tool interaction protocol started from the
constructor state: `mousePressed` is true exactly strictly between a
click and the following release (it equals the click-sets / release-
clears fold over the event history); a move forwards a radius-point
update exactly when the button is held; a click sets the circle center
and presses the button; a release clears the button and finalizes the
circle, running the single `CircleFinished` query trigger once. -/
theorem c7_circle_interaction_protocol (evs : List MouseEvent) (x y : Int) :
    (applyEvents initInteraction evs).mousePressed = buttonHeld evs
    ∧ (applyEvent (applyEvents initInteraction evs) (.move x y)).circleRadiusPoint =
        (if (applyEvents initInteraction evs).mousePressed then some (x, y)
         else (applyEvents initInteraction evs).circleRadiusPoint)
    ∧ (applyEvent (applyEvents initInteraction evs) (.click x y)).circleCenter = some (x, y)
    ∧ (applyEvent (applyEvents initInteraction evs) (.click x y)).mousePressed = true
    ∧ (applyEvent (applyEvents initInteraction evs) (.release x y)).mousePressed = false
    ∧ (applyEvent (applyEvents initInteraction evs) (.release x y)).circleFinishedCount
        = (applyEvents initInteraction evs).circleFinishedCount + 1 := by
  have htools : (applyEvents initInteraction evs).activeTool = 1
      ∧ (applyEvents initInteraction evs).circleTool = true := by
    have hgen : ∀ (l : List MouseEvent) (s : InteractionState),
        (applyEvents s l).activeTool = s.activeTool
          ∧ (applyEvents s l).circleTool = s.circleTool := by
      intro l
      induction l with
      | nil => exact fun s => ⟨rfl, rfl⟩
      | cons e rest ih =>
        intro s
        have h1 := applyEvent_tools s e
        have h2 := ih (applyEvent s e)
        exact ⟨h2.1.trans h1.1, h2.2.trans h1.2⟩
    exact hgen evs initInteraction
  refine ⟨applyEvents_pressed initInteraction evs, ?_, ?_, ?_, ?_, ?_⟩ <;>
    simp [applyEvent, mouseClick, mouseMove, mouseRelease, circleToolIndex, htools.1, htools.2]
  by_cases hp : (applyEvents initInteraction evs).mousePressed <;> simp [hp]

/-- Claim C8.  From any selection-layer state with a current state and a
non-empty undo stack, `Undo` followed by `Redo` restores the current
state and both stacks exactly; `Undo` moves the current state onto the
redo stack and installs the undo-stack top, and `Redo` moves it back. -/
theorem c8_undo_redo_roundtrip (s : SelLayer) (cur top : ESel) (rest : List ESel)
    (h1 : s.selectedState = some cur) (h2 : s.undoStack = top :: rest) :
    redo (undo s) = s
    ∧ (undo s).selectedState = some top
    ∧ (undo s).redoStack = cur :: s.redoStack
    ∧ (undo s).undoStack = rest := by
  obtain ⟨sel, us, rs⟩ := s
  simp only at h1 h2
  subst h1 h2
  simp [undo, redo]

/-- Witness for claim C8, on the concrete state `exSel8`. -/
theorem c8_undo_redo_roundtrip_witness :
    redo (undo exSel8) = exSel8
    ∧ (undo exSel8).selectedState = some [3]
    ∧ (undo exSel8).redoStack = [5] :: exSel8.redoStack
    ∧ (undo exSel8).undoStack = [] :=
  c8_undo_redo_roundtrip exSel8 [5] [3] [] (by simp [exSel8]) (by simp [exSel8])

/-- Claim C9.  When the circle tool's finished search yields zero
elements, `CircleToolFinishedSearching` leaves the set of currently
selected elements, the undo stack and the redo stack unchanged: the
empty result is discarded. -/
theorem c9_empty_search_result_discarded (s : SelLayer) :
    selectedElements (circleToolFinishedSearching s []) = selectedElements s
    ∧ (circleToolFinishedSearching s []).undoStack = s.undoStack
    ∧ (circleToolFinishedSearching s []).redoStack = s.redoStack := by
  obtain ⟨sel, us, rs⟩ := s
  cases sel <;> simp [circleToolFinishedSearching, selectedElements]

/-- Claim C10.  When both the current selection and the circle-search
result are non-empty, the merged selection holds each element at most
once, equals as a set the union of the previous selection and the newly
found elements, and the previous selection is pushed unmodified onto the
undo stack. -/
theorem c10_merge_nodup_union_pushes_undo (s : SelLayer) (cur found : List Nat)
    (h1 : s.selectedState = some cur) (h2 : cur ≠ []) (h3 : found ≠ []) :
    (selectedElements (circleToolFinishedSearching s found)).Nodup
    ∧ (∀ a, a ∈ selectedElements (circleToolFinishedSearching s found) ↔ a ∈ found ∨ a ∈ cur)
    ∧ (circleToolFinishedSearching s found).undoStack = cur :: s.undoStack := by
  obtain ⟨sel, us, rs⟩ := s
  simp only at h1
  subst h1
  have hf : 0 < found.length := List.length_pos.mpr h3
  have hc : 0 < cur.length := List.length_pos.mpr h2
  simp only [circleToolFinishedSearching, selectedElements, Option.getD_some, hf, hc, if_pos]
  refine ⟨?_, ?_, trivial⟩
  · exact nodup_uniqueAdj _ (List.sorted_insertionSort _ _)
  · intro a
    simp [mem_uniqueAdj]

/-- Witness for claim C10, merging the selection [2, 1] of `exSel10`
with the search result [2, 3]. -/
theorem c10_merge_nodup_union_pushes_undo_witness :
    (selectedElements (circleToolFinishedSearching exSel10 [2, 3])).Nodup
    ∧ (∀ a, a ∈ selectedElements (circleToolFinishedSearching exSel10 [2, 3])
        ↔ a ∈ [2, 3] ∨ a ∈ [2, 1])
    ∧ (circleToolFinishedSearching exSel10 [2, 3]).undoStack = [2, 1] :: exSel10.undoStack :=
  c10_merge_nodup_union_pushes_undo exSel10 [2, 1] [2, 3] (by simp [exSel10]) (by simp) (by simp)

end AdcSub
